import Mathlib

/-!
Verification development for the appdmg-rs build pipeline (src/src/lib.rs).

The single source file exposes one entry point, `build(config, final_dmg_path)`,
which stages content into a temp directory, creates and attaches a writable
disk image, writes Finder layout metadata, then detaches and converts the
image to the final output path.  We shallowly embed the pure computations
(display-name resolution, mount-point parsing, layout-entry construction)
directly from the source, and model the effectful pipeline as a function
over an environment that supplies the outcome of every external command and
fallible filesystem operation, together with an abstract filesystem state
tracking the resources the specification talks about.

The submodules ds_store and macos_alias are referenced by lib.rs but their
sources are not part of this tree; the handful of constructors they provide
are modelled from the specification and are marked as such.
-/

/-! ## Character-list models of the Rust str operations used by lib.rs -/

/-- ASCII whitespace recognizer, the fragment of Rust char::is_whitespace
relevant to tool output. -/
def isWS (c : Char) : Bool :=
  c = ' ' || c = '\t' || c = '\n' || c = '\r'

/-- Model of Rust str::split on a single separator character: splits a
character list, keeping empty segments, always returning at least one
segment. -/
def splitOnChar (sep : Char) : List Char → List (List Char)
  | [] => [[]]
  | a :: rest =>
    let r := splitOnChar sep rest
    if a = sep then
      [] :: r
    else
      match r with
      | [] => [[a]]
      | h :: t => (a :: h) :: t

/-- Model of Rust str::trim restricted to ASCII whitespace: drops leading and
trailing whitespace characters. -/
def trimChars (l : List Char) : List Char :=
  ((l.dropWhile isWS).reverse.dropWhile isWS).reverse

/-- Model of Rust str::starts_with: the first argument read as the pattern,
checked against the front of the second. -/
def startsWithChars : List Char → List Char → Bool
  | [], _ => true
  | _ :: _, [] => false
  | a :: as, b :: bs => a = b && startsWithChars as bs

/-- Model of Rust str::lines: split on the newline character, drop the final
empty segment produced by a trailing newline, and strip one trailing carriage
return from each line. -/
def rustLines (l : List Char) : List (List Char) :=
  if l = [] then []
  else
    let parts := splitOnChar '\n' l
    let parts := if l.getLast? = some '\n' then parts.dropLast else parts
    parts.map (fun ln => if ln.getLast? = some '\r' then ln.dropLast else ln)

/-- Model of line.split(tab).last(): the final tab-separated field of a line
(the whole line when it has no tab). -/
def lastField (l : List Char) : List Char :=
  (splitOnChar '\t' l).getLastD []

/-! ## Path name resolution (Rust std Path::file_name on Unix) -/

/-- Non-trivial components of a slash-separated path: empty segments and
single-dot segments are not components. -/
def pathComponents (p : String) : List (List Char) :=
  (splitOnChar '/' p.data).filter (fun s => s ≠ [] && s ≠ ['.'])

/-- Model of Rust Path::file_name: the last component when it is a normal
component, none when the path is empty, is the root, or ends in a parent
directory component. -/
def fileName (p : String) : Option String :=
  match (pathComponents p).getLast? with
  | some s => if s = ['.', '.'] then none else some (String.mk s)
  | none => none

/-! ## Data model (struct definitions of lib.rs) -/

/-- One content item of the declaration (struct DmgContent): icon
coordinates, a kind tag, a source path, and an optional display-name
override. -/
structure DmgContent where
  x : Nat
  y : Nat
  type_ : String
  path : String
  name : Option String
deriving Repr, DecidableEq

/-- Window size in pixels (struct DmgWindowSize). -/
structure DmgWindowSize where
  width : Nat
  height : Nat
deriving Repr, DecidableEq

/-- Window geometry (struct DmgWindow). -/
structure DmgWindow where
  size : DmgWindowSize
deriving Repr, DecidableEq

/-- The build declaration (struct DmgConfig).  The icon-size scale is an f64
in the source; no arithmetic is ever performed on it, so it is carried as a
rational. -/
structure DmgConfig where
  title : String
  icon : String
  background : String
  icon_size : Rat
  window : DmgWindow
  contents : List DmgContent
deriving Repr, DecidableEq

/-- Resolved display name of a content item, the expression repeated at
lib.rs lines 66 and 116: the override when present, else the final path
component of the source path, else the literal fallback "file". -/
def resolvedName (item : DmgContent) : String :=
  match item.name with
  | some n => n
  | none => (fileName item.path).getD "file"

/-! ## Layout entries (interface of the ds_store module) -/

/-- A layout entry written to the metadata container: icon placement, window
bounds, or icon-view parameters with an optional alias blob. -/
inductive Entry where
  | iloc (name : String) (x y : Nat)
  | bwsp (width height : Nat)
  | icvp (iconSize : Rat) (aliasBlob : Option (List Nat))
deriving Repr, DecidableEq

/-- Modelled from the spec: Entry::new_iloc of the ds_store module (whose
source is not under src/) builds an icon-placement entry pairing a display
name with its coordinate pair; the source calls it infallibly. -/
def Entry.new_iloc (name : String) (x y : Nat) : Entry :=
  .iloc name x y

/-- Modelled from the spec: Entry::new_bwsp of the ds_store module (whose
source is not under src/) builds the window-bounds entry from the declared
window size; the spec states exactly one window-bounds entry is produced for
every declaration, so the constructor is total and always succeeds. -/
def Entry.new_bwsp (width height : Nat) : Except String Entry :=
  .ok (.bwsp width height)

/-- Modelled from the spec: Entry::new_icvp of the ds_store module (whose
source is not under src/) builds the icon-view-parameters entry from the
icon-size scale and the optional background alias blob; the spec states
exactly one such entry is produced for every declaration, so the constructor
is total and always succeeds. -/
def Entry.new_icvp (iconSize : Rat) (aliasBlob : Option (List Nat)) : Except String Entry :=
  .ok (.icvp iconSize aliasBlob)

/-- Recognizer for icon-placement entries. -/
def Entry.isIloc : Entry → Bool
  | .iloc .. => true
  | _ => false

/-- Recognizer for window-bounds entries. -/
def Entry.isBwsp : Entry → Bool
  | .bwsp .. => true
  | _ => false

/-- Recognizer for icon-view-parameters entries. -/
def Entry.isIcvp : Entry → Bool
  | .icvp .. => true
  | _ => false

/-- Recognizer for an icon-placement entry carrying a given display name. -/
def ilocNamed (n : String) : Entry → Bool
  | .iloc m _ _ => m = n
  | _ => false

/-- The icon-placement entries pushed by the loop at lib.rs lines 115-120:
one per content item under its resolved display name, skipping any item
whose resolved display name is the literal "license". -/
def ilocEntries (contents : List DmgContent) : List Entry :=
  contents.filterMap fun item =>
    let item_name := resolvedName item
    if item_name = "license" then none
    else some (Entry.new_iloc item_name item.x item.y)

/-- The full entry list handed to write_ds_store (lib.rs lines 114-125): the
icon-placement entries, then the window-bounds entry when its constructor
succeeds, then the icon-view-parameters entry when its constructor
succeeds. -/
def dsStoreEntries (config : DmgConfig) (bgAliasData : Option (List Nat)) : List Entry :=
  ilocEntries config.contents
    ++ (match Entry.new_bwsp config.window.size.width config.window.size.height with
        | .ok e => [e]
        | .error _ => [])
    ++ (match Entry.new_icvp config.icon_size bgAliasData with
        | .ok e => [e]
        | .error _ => [])

/-! ## Mount-point discovery (lib.rs line 94) -/

/-- The literal mount prefix checked by the source. -/
def volumesLit : List Char := '/' :: 'V' :: 'o' :: 'l' :: 'u' :: 'm' :: 'e' :: 's' :: '/' :: []

/-- Per-line step of mount-point discovery as the source performs it: take
the final tab-separated field, trim surrounding whitespace, and keep it if
the trimmed field starts with the volumes prefix. -/
def mountFieldOfLine (l : List Char) : Option (List Char) :=
  let t := trimChars (lastField l)
  if startsWithChars volumesLit t then some t else none

/-- Mount-point discovery over the attach stdout, lib.rs line 94: the first
line yielding a mount field. -/
def findMountPoint (stdout : List Char) : Option (List Char) :=
  (rustLines stdout).findSome? mountFieldOfLine

/-- Formalisation of the claim text for comparison (refinement check): the
claim describes selecting a line whose final tab-separated field itself
begins with the volumes prefix, taking that very field as the mount path,
with no trimming step. -/
def specMountFieldOfLine (l : List Char) : Option (List Char) :=
  let f := lastField l
  if startsWithChars volumesLit f then some f else none

/-- Mount-point discovery as the claim text literally describes it. -/
def specMountPoint (stdout : List Char) : Option (List Char) :=
  (rustLines stdout).findSome? specMountFieldOfLine

/-! ## The effectful pipeline

The build function coordinates external commands and fallible filesystem
operations.  An environment supplies the outcome of each such operation; an
abstract state tracks the filesystem facts the specification speaks about:
existence of the staging directory, of the temporary writable image, and of
a file at the output path, plus which pipeline steps were invoked and the
entry list handed to the metadata write. -/

/-- Outcome of launching an external command: either the launch itself
failed (std::process reports an I/O error, propagated by the question-mark
operator) or the command ran and exited with a status code; status zero is
success. -/
inductive CmdResult where
  | spawnErr
  | exit (code : Nat)
deriving Repr, DecidableEq

/-- Environment of a build run: the outcome of every external command and
fallible filesystem operation the pipeline performs, plus the initial
existence facts the source queries. -/
structure Env where
  /-- temp_dir.exists() at lib.rs line 60 -/
  tempDirExists0 : Bool
  /-- outcome of fs::remove_dir_all(temp_dir) at line 60 -/
  removeTempDir0Ok : Bool
  /-- outcome of fs::create_dir_all(temp_dir) at line 61 -/
  createTempDirOk : Bool
  /-- outcome of the cp -R command for the item at each index, line 70 -/
  cp : Nat → CmdResult
  /-- temp_dmg_path.exists() at line 79 -/
  tempDmgExists0 : Bool
  /-- outcome of fs::remove_file(temp_dmg_path) at line 79 -/
  removeTempDmg0Ok : Bool
  /-- outcome of the hdiutil create command, lines 81-88 -/
  create : CmdResult
  /-- outcome of the hdiutil attach command, line 92: none models a launch
  failure, otherwise the captured stdout (the exit status is never
  inspected by the source) -/
  attach : Option String
  /-- outcome of fs::create_dir_all(bg_dir) at line 100 -/
  mkBgDirOk : Bool
  /-- bg_src.exists() at line 103 -/
  bgExists : Bool
  /-- outcome of fs::copy of the background image at line 104 -/
  copyBgOk : Bool
  /-- result the alias encoder would produce for the on-volume background
  copy when that copy exists (macos_alias module, modelled from the spec) -/
  aliasEncode : Option (List Nat)
  /-- outcome of write_ds_store at line 125 -/
  writeDsOk : Bool
  /-- outcome of the hdiutil detach command, line 139 -/
  detach : CmdResult
  /-- final_dmg_path.exists() at line 141 -/
  outputExists0 : Bool
  /-- outcome of fs::remove_file(final_dmg_path) at line 141 -/
  removeOutputOk : Bool
  /-- outcome of the hdiutil convert command, line 142 -/
  convert : CmdResult
  /-- outcome of the best-effort fs::remove_dir_all(temp_dir) at line 144 -/
  removeTempDirFinalOk : Bool
  /-- outcome of the best-effort fs::remove_file(temp_dmg_path) at line 145 -/
  removeTempDmgFinalOk : Bool

/-- Abstract filesystem and progress state observed around a build run. -/
structure BuildState where
  /-- the staging temp directory exists -/
  tempDirExists : Bool
  /-- the temporary writable image file exists -/
  tempDmgExists : Bool
  /-- a file exists at the caller output path -/
  outputExists : Bool
  /-- destination names materialized in the staging area by the copy loop -/
  stagedNames : List String
  /-- the entry list handed to write_ds_store, once that call is reached -/
  dsEntries : Option (List Entry)
  /-- the detach command was issued -/
  detachInvoked : Bool
  /-- the convert command was issued -/
  convertInvoked : Bool
deriving Repr, DecidableEq

/-- Initial state of a build run, read off the environment. -/
def initState (env : Env) : BuildState :=
  { tempDirExists := env.tempDirExists0
    tempDmgExists := env.tempDmgExists0
    outputExists := env.outputExists0
    stagedNames := []
    dsEntries := none
    detachInvoked := false
    convertInvoked := false }

/-- Errors the build returns, one constructor per distinct failure site of
lib.rs; ioErr covers every error propagated by the question-mark operator
(launch failures and filesystem errors), tagged with its site. -/
inductive BuildErr where
  | ioErr (site : String)
  | copyFailed (src : String)
  | createFailed
  | noMountPoint
  | convertFailed
deriving Repr, DecidableEq

/-- Modelled from the spec: the alias resolution of lib.rs lines 110-111
through the macos_alias module (whose source is not under src/).  The spec
contract is resolve(path) giving an optional blob where any failure,
including the on-volume image being missing, degrades to none rather than
an error; when the on-volume copy exists the encoder may still succeed or
fail, which the environment supplies. -/
def resolveAlias (volBgExists : Bool) (encodeResult : Option (List Nat)) : Option (List Nat) :=
  if volBgExists then encodeResult else none

/-- The content-staging loop of lib.rs lines 64-75, at a given item index:
for a file-kind item, a launch failure of cp propagates and a non-zero exit
aborts with the failing source path; for a link-kind item the symlink result
is ignored; any other kind does nothing.  On success it returns the list of
staging destination names used for file and link items. -/
def copyLoop (env : Env) : List DmgContent → Nat → Except BuildErr (List String)
  | [], _ => .ok []
  | item :: rest, i =>
    let item_name := resolvedName item
    if item.type_ = "file" then
      match env.cp i with
      | .spawnErr => .error (.ioErr "cp")
      | .exit c =>
        if c = 0 then (copyLoop env rest (i + 1)).map (item_name :: ·)
        else .error (.copyFailed item.path)
    else if item.type_ = "link" then
      (copyLoop env rest (i + 1)).map (item_name :: ·)
    else
      copyLoop env rest (i + 1)

/-- A pipeline stage either reaches the next stage with an updated state or
aborts with an error and the state at the abort. -/
abbrev Stage := Except (BuildErr × BuildState) BuildState

/-- Stage 1, lib.rs lines 59-61: remove a pre-existing staging directory,
then create a fresh one; either filesystem failure propagates. -/
def stagePrep (env : Env) (s : BuildState) : Stage :=
  if env.tempDirExists0 && !env.removeTempDir0Ok then
    .error (.ioErr "remove_dir_all temp_dir", s)
  else
    let s := { s with tempDirExists := false }
    if env.createTempDirOk then .ok { s with tempDirExists := true }
    else .error (.ioErr "create_dir_all temp_dir", s)

/-- Stage 2, lib.rs lines 64-75: run the content-staging loop. -/
def stageCopy (env : Env) (config : DmgConfig) (s : BuildState) : Stage :=
  match copyLoop env config.contents 0 with
  | .error e => .error (e, s)
  | .ok names => .ok { s with stagedNames := names }

/-- Stage 3, lib.rs lines 78-89: remove a pre-existing temporary image, then
run hdiutil create; a launch failure propagates and a non-zero exit aborts;
on success the temporary writable image exists. -/
def stageCreate (env : Env) (s : BuildState) : Stage :=
  if env.tempDmgExists0 && !env.removeTempDmg0Ok then
    .error (.ioErr "remove_file temp_dmg", s)
  else
    let s := { s with tempDmgExists := false }
    match env.create with
    | .spawnErr => .error (.ioErr "hdiutil create", s)
    | .exit c =>
      if c = 0 then .ok { s with tempDmgExists := true }
      else .error (.createFailed, s)

/-- Stage 4, lib.rs lines 92-95: run hdiutil attach (a launch failure
propagates; the exit status is never inspected) and parse its stdout for the
mount point; absence of a mount point aborts. -/
def stageAttach (env : Env) (s : BuildState) : Stage :=
  match env.attach with
  | none => .error (.ioErr "hdiutil attach", s)
  | some stdout =>
    match findMountPoint stdout.data with
    | none => .error (.noMountPoint, s)
    | some _ => .ok s

/-- Stage 5, lib.rs lines 99-136: create the background directory (failure
propagates), copy the background image when its source exists (failure
propagates), resolve the background alias (never fatal), build the entry
list and hand it to write_ds_store (whose failure propagates); the hidden
flags, volume icon chain and sync are best-effort with results discarded. -/
def stageLayout (env : Env) (config : DmgConfig) (s : BuildState) : Stage :=
  if !env.mkBgDirOk then .error (.ioErr "create_dir_all bg_dir", s)
  else if env.bgExists && !env.copyBgOk then .error (.ioErr "copy background", s)
  else
    let bgAliasData := resolveAlias env.bgExists env.aliasEncode
    let entries := dsStoreEntries config bgAliasData
    let s := { s with dsEntries := some entries }
    if env.writeDsOk then .ok s
    else .error (.ioErr "write_ds_store", s)

/-- Stage 6, lib.rs lines 139-148: issue hdiutil detach, whose launch
failure propagates but whose exit status is ignored; remove a pre-existing
file at the output path (failure propagates); issue hdiutil convert, whose
launch failure propagates immediately; then best-effort remove the staging
directory and the temporary image; finally a non-zero convert exit is
reported as an error. -/
def stageFinish (env : Env) (s : BuildState) : Except BuildErr Unit × BuildState :=
  let s := { s with detachInvoked := true }
  match env.detach with
  | .spawnErr => (.error (.ioErr "hdiutil detach"), s)
  | .exit _ =>
    if env.outputExists0 && !env.removeOutputOk then
      (.error (.ioErr "remove_file output"), s)
    else
      let s := { s with outputExists := false }
      let s := { s with convertInvoked := true }
      match env.convert with
      | .spawnErr => (.error (.ioErr "hdiutil convert"), s)
      | .exit c =>
        let s := if c = 0 then { s with outputExists := true } else s
        let s := if env.removeTempDirFinalOk then { s with tempDirExists := false } else s
        let s := if env.removeTempDmgFinalOk then { s with tempDmgExists := false } else s
        if c = 0 then (.ok (), s) else (.error .convertFailed, s)

/-- Composition of the stages up to and including image creation. -/
def runToAttach (env : Env) (config : DmgConfig) : Stage :=
  ((stagePrep env (initState env)).bind (stageCopy env config)).bind (stageCreate env)

/-- Composition of every stage before detach and convert. -/
def runStages (env : Env) (config : DmgConfig) : Stage :=
  ((runToAttach env config).bind (stageAttach env)).bind (stageLayout env config)

/-- The build pipeline of lib.rs lines 57-148: run the stages in order,
propagating the first fatal error together with the state at that point,
and finish with detach, convert and the final cleanup. -/
def build (env : Env) (config : DmgConfig) : Except BuildErr Unit × BuildState :=
  match runStages env config with
  | .error (e, s) => (.error e, s)
  | .ok s => stageFinish env s

/-! ## Concrete environments and declarations used as test vectors -/

/-- Environment in which every external operation succeeds, the attach
output lists a volume line, and nothing pre-exists at the temp or output
paths. -/
def envOkBase : Env :=
  { tempDirExists0 := false
    removeTempDir0Ok := true
    createTempDirOk := true
    cp := fun _ => .exit 0
    tempDmgExists0 := false
    removeTempDmg0Ok := true
    create := .exit 0
    attach := some "/dev/disk2\tApple_HFS\t/Volumes/T\n"
    mkBgDirOk := true
    bgExists := false
    copyBgOk := true
    aliasEncode := none
    writeDsOk := true
    detach := .exit 0
    outputExists0 := false
    removeOutputOk := true
    convert := .exit 0
    removeTempDirFinalOk := true
    removeTempDmgFinalOk := true }

/-- A plain file-kind content item with no name override. -/
def itemApp : DmgContent :=
  { x := 100, y := 100, type_ := "file", path := "/src/App.app", name := none }

/-- A one-item declaration. -/
def cfgBase : DmgConfig :=
  { title := "T", icon := "/src/icon.icns", background := "/src/bg.png", icon_size := 96
    window := { size := { width := 400, height := 300 } }
    contents := [itemApp] }

/-- Environment whose copy tool fails with exit status 1 on every item. -/
def envC1 : Env := { envOkBase with cp := fun _ => .exit 1 }

/-- Environment with a pre-existing file at the output path and a failing
conversion. -/
def envC2 : Env := { envOkBase with outputExists0 := true, convert := .exit 1 }

/-- Environment whose detach command exits with status 1. -/
def envC3 : Env := { envOkBase with detach := .exit 1 }

/-- Environment whose attach output carries the volume path only with
surrounding whitespace inside the final tab-separated field. -/
def envC5 : Env := { envOkBase with attach := some "disk\t /Volumes/V " }

/-- Environment whose copy tool succeeds on the first item and fails with
exit status 1 from the second item on. -/
def envW4 : Env :=
  { envOkBase with cp := fun i => if i = 0 then .exit 0 else .exit 1 }

/-- A second plain file-kind content item. -/
def itemOther : DmgContent :=
  { x := 300, y := 100, type_ := "file", path := "/src/other", name := none }

/-- Two-item declaration whose second file item will fail to copy under
envW4. -/
def cfgW4 : DmgConfig :=
  { cfgBase with contents := [itemApp, itemOther] }

/-- Environment whose attach output holds no volume line at all. -/
def envW5 : Env := { envOkBase with attach := some "junk" }

/-- The content item of cfgW10: no override and no extractable final path
component. -/
def itemW10 : DmgContent :=
  { x := 5, y := 6, type_ := "file", path := "..", name := none }

/-- Declaration containing two content items with the same resolved
display name. -/
def cfgC9 : DmgConfig :=
  { cfgBase with contents :=
      [ { x := 0, y := 0, type_ := "file", path := "/a/x", name := some "a" },
        { x := 9, y := 9, type_ := "file", path := "/b/y", name := some "a" } ] }

/-- Declaration with two ordinary items and one item resolving to the
reserved licensing name. -/
def cfgW7 : DmgConfig :=
  { cfgBase with contents :=
      [ itemApp,
        { x := 300, y := 100, type_ := "link", path := "/Applications", name := none },
        { x := 0, y := 0, type_ := "file", path := "/src/license", name := none } ] }

/-- Declaration whose single item has a source path with no extractable
final component and no name override. -/
def cfgW10 : DmgConfig :=
  { cfgBase with contents := [itemW10] }

/-! ## State-tracking helper definitions -/

/-- The state carried by a stage outcome, whether it continued or
aborted. -/
def stageState : Stage → BuildState
  | .ok s => s
  | .error (_, s) => s

/-- The fields none of the stages before detach ever modify. -/
def preservesCore (s t : BuildState) : Prop :=
  t.outputExists = s.outputExists ∧ t.detachInvoked = s.detachInvoked ∧
    t.convertInvoked = s.convertInvoked

/-! ## Helper lemmas -/

/-- A successful findSome? splits its list into a prefix of misses, the
first hit, and a remainder. -/
theorem findSome?_split {α β : Type} (f : α → Option β) :
    ∀ (l : List α) (b : β), l.findSome? f = some b →
      ∃ pre x post, l = pre ++ x :: post ∧ (∀ y ∈ pre, f y = none) ∧ f x = some b := by
  intro l
  induction l with
  | nil => intro b h; simp [List.findSome?] at h
  | cons a t ih =>
    intro b h
    rw [List.findSome?] at h
    cases hfa : f a with
    | some c =>
      rw [hfa] at h
      refine ⟨[], a, t, rfl, by simp, ?_⟩
      rw [hfa]
      exact h
    | none =>
      rw [hfa] at h
      obtain ⟨pre, x, post, hl, hpre, hx⟩ := ih b h
      refine ⟨a :: pre, x, post, by rw [hl]; rfl, ?_, hx⟩
      intro y hy
      rcases List.mem_cons.mp hy with hy | hy
      · rw [hy]; exact hfa
      · exact hpre y hy

/-- A failed findSome? misses on every element. -/
theorem findSome?_none {α β : Type} (f : α → Option β) :
    ∀ (l : List α), l.findSome? f = none → ∀ x ∈ l, f x = none := by
  intro l
  induction l with
  | nil => intro _ x hx; cases hx
  | cons a t ih =>
    intro h x hx
    rw [List.findSome?] at h
    cases hfa : f a with
    | some c => rw [hfa] at h; cases h
    | none =>
      rw [hfa] at h
      rcases List.mem_cons.mp hx with hx | hx
      · rw [hx]; exact hfa
      · exact ih h x hx

/-- Every entry produced by the placement loop is an icon-placement
entry. -/
theorem ilocEntries_all_iloc (c : List DmgContent) :
    ∀ e ∈ ilocEntries c, e.isIloc = true := by
  intro e he
  simp only [ilocEntries, List.mem_filterMap] at he
  obtain ⟨item, _, hf⟩ := he
  by_cases h : resolvedName item = "license"
  · simp [h] at hf
  · simp only [h, if_false, Option.some.injEq] at hf
    rw [← hf]
    rfl

/-- An icon-placement entry is neither a bounds nor a view-parameters
entry. -/
theorem isIloc_not_others (e : Entry) (h : e.isIloc = true) :
    e.isBwsp = false ∧ e.isIcvp = false := by
  cases e <;> simp_all [Entry.isIloc, Entry.isBwsp, Entry.isIcvp]

/-- With no item resolving to the reserved name, the placement loop emits
one entry per item. -/
theorem ilocEntries_length (c : List DmgContent)
    (h : ∀ item ∈ c, resolvedName item ≠ "license") :
    (ilocEntries c).length = c.length := by
  induction c with
  | nil => rfl
  | cons a t ih =>
    have ha := h a (List.mem_cons_self a t)
    simp only [ilocEntries, List.filterMap_cons, ha, if_false]
    simp only [List.length_cons]
    rw [show (ilocEntries t) = t.filterMap _ from rfl] at ih
    rw [ih fun item hi => h item (List.mem_cons_of_mem a hi)]

/-- Count of icon-placement entries carrying a given name: none for the
reserved name, else one per content item resolving to that name. -/
theorem ilocEntries_countP_named (c : List DmgContent) (n : String) :
    (ilocEntries c).countP (ilocNamed n) =
      if n = "license" then 0
      else c.countP (fun item => resolvedName item = n) := by
  induction c with
  | nil => simp [ilocEntries]
  | cons a t ih =>
    by_cases ha : resolvedName a = "license"
    · by_cases hn : n = "license"
      · simp only [ilocEntries, List.filterMap_cons, ha, if_true, hn] at ih ⊢
        exact ih
      · have han : ¬(resolvedName a = n) := by rw [ha]; intro h; exact hn h.symm
        simp only [ilocEntries, List.filterMap_cons, ha, if_true, hn, if_false] at ih ⊢
        rw [List.countP_cons_of_neg _ _ (by simpa using han)]
        exact ih
    · by_cases han : resolvedName a = n
      · have hn : ¬(n = "license") := by rw [← han]; intro h; exact ha h
        simp only [ilocEntries, List.filterMap_cons, ha, if_false, hn] at ih ⊢
        rw [List.countP_cons_of_pos _ _ (by simp [Entry.new_iloc, ilocNamed, han]),
          List.countP_cons_of_pos _ _ (by simpa using han)]
        rw [ih]
      · simp only [ilocEntries, List.filterMap_cons, ha, if_false] at ih ⊢
        rw [List.countP_cons_of_neg _ _ (by simp [Entry.new_iloc, ilocNamed, han])]
        by_cases hn : n = "license"
        · simp only [hn, if_true] at ih ⊢; exact ih
        · simp only [hn, if_false] at ih ⊢
          rw [List.countP_cons_of_neg _ _ (by simpa using han)]
          exact ih

/-- Membership of the expected icon-placement entry for a non-reserved
item. -/
theorem mem_ilocEntries (c : List DmgContent) (item : DmgContent)
    (h : item ∈ c) (hn : resolvedName item ≠ "license") :
    Entry.iloc (resolvedName item) item.x item.y ∈ ilocEntries c := by
  simp only [ilocEntries, List.mem_filterMap]
  exact ⟨item, h, by simp [hn, Entry.new_iloc]⟩

/-- No icon-placement entry ever carries the reserved name. -/
theorem ilocEntries_no_license (c : List DmgContent) (x y : Nat) :
    Entry.iloc "license" x y ∉ ilocEntries c := by
  intro hmem
  simp only [ilocEntries, List.mem_filterMap] at hmem
  obtain ⟨item, _, hf⟩ := hmem
  by_cases h : resolvedName item = "license"
  · simp [h] at hf
  · simp only [h, if_false, Entry.new_iloc, Option.some.injEq, Entry.iloc.injEq] at hf
    exact hf.1.elim

/-- The entry list is the placement entries followed by the bounds entry
and the view-parameters entry. -/
theorem dsStoreEntries_eq (config : DmgConfig) (blob : Option (List Nat)) :
    dsStoreEntries config blob =
      ilocEntries config.contents
        ++ [Entry.bwsp config.window.size.width config.window.size.height]
        ++ [Entry.icvp config.icon_size blob] := rfl

/-- Core-field preservation is transitive. -/
theorem preservesCore_trans {s t u : BuildState}
    (h1 : preservesCore s t) (h2 : preservesCore t u) : preservesCore s u :=
  ⟨h2.1.trans h1.1, h2.2.1.trans h1.2.1, h2.2.2.trans h1.2.2⟩

/-- Binding a stage preserves the core fields when both parts do. -/
theorem preservesCore_bind {s : BuildState} (x : Stage) (f : BuildState → Stage)
    (hx : preservesCore s (stageState x))
    (hf : ∀ t, preservesCore t (stageState (f t))) :
    preservesCore s (stageState (x.bind f)) := by
  cases x with
  | error e => exact hx
  | ok t => exact preservesCore_trans hx (hf t)

/-- Stage 1 does not touch the output path nor the detach and convert
marks. -/
theorem stagePrep_core (env : Env) (s : BuildState) :
    preservesCore s (stageState (stagePrep env s)) := by
  unfold stagePrep
  cases h1 : (env.tempDirExists0 && !env.removeTempDir0Ok) <;>
    cases h2 : env.createTempDirOk <;>
      simp [h1, h2, stageState, preservesCore]

/-- Stage 2 does not touch the output path nor the detach and convert
marks. -/
theorem stageCopy_core (env : Env) (config : DmgConfig) (s : BuildState) :
    preservesCore s (stageState (stageCopy env config s)) := by
  unfold stageCopy
  cases h : copyLoop env config.contents 0 <;> simp [h, stageState, preservesCore]

/-- Stage 3 does not touch the output path nor the detach and convert
marks. -/
theorem stageCreate_core (env : Env) (s : BuildState) :
    preservesCore s (stageState (stageCreate env s)) := by
  unfold stageCreate
  cases h1 : (env.tempDmgExists0 && !env.removeTempDmg0Ok)
  · cases hc : env.create with
    | spawnErr => simp [h1, stageState, preservesCore]
    | exit c =>
      by_cases h0 : c = 0 <;> simp [h1, h0, stageState, preservesCore]
  · simp [h1, stageState, preservesCore]

/-- Stage 4 does not touch the output path nor the detach and convert
marks. -/
theorem stageAttach_core (env : Env) (s : BuildState) :
    preservesCore s (stageState (stageAttach env s)) := by
  unfold stageAttach
  cases ha : env.attach with
  | none => simp [stageState, preservesCore]
  | some stdout =>
    cases hm : findMountPoint stdout.data <;> simp [hm, stageState, preservesCore]

/-- Stage 5 does not touch the output path nor the detach and convert
marks. -/
theorem stageLayout_core (env : Env) (config : DmgConfig) (s : BuildState) :
    preservesCore s (stageState (stageLayout env config s)) := by
  unfold stageLayout
  cases h1 : env.mkBgDirOk
  · simp [h1, stageState, preservesCore]
  · cases h2 : (env.bgExists && !env.copyBgOk)
    · cases h3 : env.writeDsOk <;> simp [h1, h2, h3, stageState, preservesCore]
    · simp [h1, h2, stageState, preservesCore]

/-- No stage before detach touches the output path or the detach and
convert marks. -/
theorem runStages_core (env : Env) (config : DmgConfig) :
    preservesCore (initState env) (stageState (runStages env config)) := by
  unfold runStages runToAttach
  refine preservesCore_bind _ _ (preservesCore_bind _ _ (preservesCore_bind _ _
    (preservesCore_bind _ _ (stagePrep_core env _) ?_) ?_) ?_) ?_
  · exact fun t => stageCopy_core env config t
  · exact fun t => stageCreate_core env t
  · exact fun t => stageAttach_core env t
  · exact fun t => stageLayout_core env config t

/-- A successful stage run yields a state with the output path fact and the
step marks unchanged from the start. -/
theorem runStages_ok_core (env : Env) (config : DmgConfig) (s : BuildState)
    (h : runStages env config = .ok s) :
    s.outputExists = env.outputExists0 ∧ s.detachInvoked = false ∧
      s.convertInvoked = false := by
  have hc := runStages_core env config
  rw [h] at hc
  exact ⟨hc.1, hc.2.1, hc.2.2⟩

/-- An aborting stage run reports a state with the output path fact and the
step marks unchanged from the start. -/
theorem runStages_error_core (env : Env) (config : DmgConfig) (e : BuildErr)
    (s : BuildState) (h : runStages env config = .error (e, s)) :
    s.outputExists = env.outputExists0 ∧ s.detachInvoked = false ∧
      s.convertInvoked = false := by
  have hc := runStages_core env config
  rw [h] at hc
  exact ⟨hc.1, hc.2.1, hc.2.2⟩

/-- The finishing stage never modifies the entry list handed to the
metadata write. -/
theorem stageFinish_dsEntries (env : Env) (s : BuildState) :
    (stageFinish env s).2.dsEntries = s.dsEntries := by
  unfold stageFinish
  cases hd : env.detach with
  | spawnErr => simp
  | exit c =>
    cases h1 : (env.outputExists0 && !env.removeOutputOk)
    · cases hc : env.convert with
      | spawnErr => simp [h1]
      | exit d =>
        by_cases h0 : d = 0 <;>
          cases h2 : env.removeTempDirFinalOk <;>
            cases h3 : env.removeTempDmgFinalOk <;> simp [h1, h0, h2, h3]
    · simp [h1]

/-- When the first failing file-kind item of the list sits at index i with a
non-zero copy exit status, the staging loop aborts with that item's source
path. -/
theorem copyLoop_fails (env : Env) :
    ∀ (items : List DmgContent) (k i : Nat) (item : DmgContent) (c : Nat),
      items.get? i = some item →
      item.type_ = "file" →
      env.cp (k + i) = CmdResult.exit c → c ≠ 0 →
      (∀ j, j < i → ∀ itj, items.get? j = some itj → itj.type_ = "file" →
        env.cp (k + j) = CmdResult.exit 0) →
      copyLoop env items k = .error (.copyFailed item.path) := by
  intro items
  induction items with
  | nil => intro k i item c hi; cases hi
  | cons a t ih =>
    intro k i item c hi hty hfail hc hbefore
    cases i with
    | zero =>
      have ha : a = item := by
        have : some a = some item := hi
        injection this
      subst ha
      rw [Nat.add_zero] at hfail
      unfold copyLoop
      simp only [hty, if_true, hfail]
      simp [hc]
    | succ j =>
      have hi' : t.get? j = some item := hi
      have hfail' : env.cp ((k + 1) + j) = CmdResult.exit c := by
        have harith : (k + 1) + j = k + (j + 1) := by omega
        rw [harith]
        exact hfail
      have hbefore' : ∀ j2, j2 < j → ∀ itj, t.get? j2 = some itj →
          itj.type_ = "file" → env.cp ((k + 1) + j2) = CmdResult.exit 0 := by
        intro j2 hj2 itj hg hf
        have := hbefore (j2 + 1) (Nat.succ_lt_succ hj2) itj hg hf
        have harith : (k + 1) + j2 = k + (j2 + 1) := by omega
        rw [harith]
        exact this
      have hrec := ih (k + 1) j item c hi' hty hfail' hc hbefore'
      by_cases hfa : a.type_ = "file"
      · have h0 : env.cp k = CmdResult.exit 0 := by
          have := hbefore 0 (Nat.succ_pos j) a rfl hfa
          rwa [Nat.add_zero] at this
        unfold copyLoop
        simp only [hfa, if_true, h0]
        simp only [if_pos rfl, hrec]
        rfl
      · by_cases hla : a.type_ = "link"
        · unfold copyLoop
          simp only [hfa, if_false, hla, if_true, hrec]
          rfl
        · unfold copyLoop
          simp only [hfa, if_false, hla]
          exact hrec

/-- When the staging loop aborts, the build returns its error with the
staging directory in place and nothing later ever run. -/
theorem build_copy_error (env : Env) (config : DmgConfig) (e : BuildErr)
    (hprep : (env.tempDirExists0 && !env.removeTempDir0Ok) = false)
    (hcreate : env.createTempDirOk = true)
    (hloop : copyLoop env config.contents 0 = .error e) :
    build env config =
      (.error e,
        { tempDirExists := true, tempDmgExists := env.tempDmgExists0,
          outputExists := env.outputExists0, stagedNames := [],
          dsEntries := none, detachInvoked := false, convertInvoked := false }) := by
  unfold build runStages runToAttach stagePrep stageCopy
  simp [hprep, hcreate, hloop, initState, Except.bind]

/-- The entry list always holds exactly one window-bounds entry. -/
theorem dsStoreEntries_bwsp_count (config : DmgConfig) (blob : Option (List Nat)) :
    (dsStoreEntries config blob).countP Entry.isBwsp = 1 := by
  rw [dsStoreEntries_eq, List.countP_append, List.countP_append]
  have h0 : (ilocEntries config.contents).countP Entry.isBwsp = 0 := by
    rw [List.countP_eq_zero]
    intro e he
    simp [(isIloc_not_others e (ilocEntries_all_iloc config.contents e he)).1]
  rw [h0]
  rfl

/-- The entry list always holds exactly one icon-view-parameters entry. -/
theorem dsStoreEntries_icvp_count (config : DmgConfig) (blob : Option (List Nat)) :
    (dsStoreEntries config blob).countP Entry.isIcvp = 1 := by
  rw [dsStoreEntries_eq, List.countP_append, List.countP_append]
  have h0 : (ilocEntries config.contents).countP Entry.isIcvp = 0 := by
    rw [List.countP_eq_zero]
    intro e he
    simp [(isIloc_not_others e (ilocEntries_all_iloc config.contents e he)).2]
  rw [h0]
  rfl

/-- With no reserved-named item the entry list holds exactly one
icon-placement entry per content item. -/
theorem dsStoreEntries_iloc_count (config : DmgConfig) (blob : Option (List Nat))
    (h : ∀ item ∈ config.contents, resolvedName item ≠ "license") :
    (dsStoreEntries config blob).countP Entry.isIloc = config.contents.length := by
  rw [dsStoreEntries_eq, List.countP_append, List.countP_append]
  have h1 : (ilocEntries config.contents).countP Entry.isIloc
      = (ilocEntries config.contents).length := by
    rw [List.countP_eq_length]
    exact fun e he => ilocEntries_all_iloc _ e he
  rw [h1, ilocEntries_length _ h]
  rfl

/-! ## Claims -/

/-- C6: for every declaration with N content items none of whose resolved
display names equals the reserved licensing keyword, the layout-entry
construction produces exactly N icon-placement entries plus exactly one
window-bounds entry plus exactly one icon-view-parameters entry. -/
theorem c6_entry_counts (config : DmgConfig) (blob : Option (List Nat))
    (h : ∀ item ∈ config.contents, resolvedName item ≠ "license") :
    (dsStoreEntries config blob).countP Entry.isIloc = config.contents.length ∧
    (dsStoreEntries config blob).countP Entry.isBwsp = 1 ∧
    (dsStoreEntries config blob).countP Entry.isIcvp = 1 :=
  ⟨dsStoreEntries_iloc_count config blob h, dsStoreEntries_bwsp_count config blob,
    dsStoreEntries_icvp_count config blob⟩

/-- Witness for C6 at a concrete two-item declaration. -/
theorem c6_witness :
    (∀ item ∈ cfgW4.contents, resolvedName item ≠ "license") ∧
    ((dsStoreEntries cfgW4 none).countP Entry.isIloc = cfgW4.contents.length ∧
     (dsStoreEntries cfgW4 none).countP Entry.isBwsp = 1 ∧
     (dsStoreEntries cfgW4 none).countP Entry.isIcvp = 1) :=
  ⟨by decide, c6_entry_counts cfgW4 none (by decide)⟩

/-- C7: for every declaration in which some content item resolves to the
case-sensitive literal reserved name "license", no icon-placement entry is
emitted for that name, while icon-placement entries for every other item
and the single window-bounds and icon-view-parameters entries are still
produced. -/
theorem c7_license_skip (config : DmgConfig) (blob : Option (List Nat))
    (h : ∃ item ∈ config.contents, resolvedName item = "license") :
    (∀ x y : Nat, Entry.iloc "license" x y ∉ dsStoreEntries config blob) ∧
    (∀ item ∈ config.contents, resolvedName item ≠ "license" →
      Entry.iloc (resolvedName item) item.x item.y ∈ dsStoreEntries config blob) ∧
    (dsStoreEntries config blob).countP Entry.isBwsp = 1 ∧
    (dsStoreEntries config blob).countP Entry.isIcvp = 1 := by
  refine ⟨?_, ?_, dsStoreEntries_bwsp_count config blob, dsStoreEntries_icvp_count config blob⟩
  · intro x y hmem
    rw [dsStoreEntries_eq] at hmem
    simp only [List.mem_append, List.mem_singleton] at hmem
    rcases hmem with (hmem | hmem) | hmem
    · exact ilocEntries_no_license _ x y hmem
    · exact Entry.noConfusion hmem
    · exact Entry.noConfusion hmem
  · intro item hmem hn
    rw [dsStoreEntries_eq]
    simp only [List.mem_append]
    exact Or.inl (Or.inl (mem_ilocEntries _ item hmem hn))

/-- Witness for C7 at a declaration holding a license-named item. -/
theorem c7_witness :
    (∃ item ∈ cfgW7.contents, resolvedName item = "license") ∧
    ((∀ x y : Nat, Entry.iloc "license" x y ∉ dsStoreEntries cfgW7 none) ∧
     (∀ item ∈ cfgW7.contents, resolvedName item ≠ "license" →
       Entry.iloc (resolvedName item) item.x item.y ∈ dsStoreEntries cfgW7 none) ∧
     (dsStoreEntries cfgW7 none).countP Entry.isBwsp = 1 ∧
     (dsStoreEntries cfgW7 none).countP Entry.isIcvp = 1) :=
  ⟨by decide, c7_license_skip cfgW7 none (by decide)⟩

/-- C9 counterexample: a declaration with two content items resolving to
the same display name "a" hands the metadata write an entry list in which
that display name appears twice as an icon-placement entry. -/
theorem c9_counterexample :
    (build envOkBase cfgC9).2.dsEntries = some (dsStoreEntries cfgC9 none) ∧
    ((build envOkBase cfgC9).2.dsEntries.getD []).countP (ilocNamed "a") = 2 :=
  ⟨rfl, by decide⟩

/-- C9 amended: in the entry list handed to the metadata write, a display
name appears as an icon-placement entry exactly once per content item that
resolves to it (never for the reserved licensing name), so duplicated
resolved names yield duplicated icon-placement entries. -/
theorem c9_per_item_count (config : DmgConfig) (blob : Option (List Nat)) (n : String) :
    (dsStoreEntries config blob).countP (ilocNamed n) =
      if n = "license" then 0
      else config.contents.countP (fun item => resolvedName item = n) := by
  rw [dsStoreEntries_eq, List.countP_append, List.countP_append, ilocEntries_countP_named]
  have h2 : List.countP (ilocNamed n)
      [Entry.bwsp config.window.size.width config.window.size.height] = 0 := rfl
  have h3 : List.countP (ilocNamed n) [Entry.icvp config.icon_size blob] = 0 := rfl
  rw [h2, h3]
  simp

/-- C10: a content item with no name override and no extractable final path
component resolves to the literal fallback name "file", which is the name
materialized by the staging loop and the name carried by the item's
icon-placement entry. -/
theorem c10_fallback_name (env : Env) (item : DmgContent)
    (h1 : item.name = none) (h2 : fileName item.path = none)
    (h3 : item.type_ = "file") (h4 : env.cp 0 = CmdResult.exit 0) :
    resolvedName item = "file" ∧
    copyLoop env [item] 0 = .ok ["file"] ∧
    ∀ (config : DmgConfig) (blob : Option (List Nat)), item ∈ config.contents →
      Entry.iloc "file" item.x item.y ∈ dsStoreEntries config blob := by
  have hres : resolvedName item = "file" := by
    simp only [resolvedName, h1, h2]
    rfl
  have hcopy : copyLoop env [item] 0 = .ok ["file"] := by
    unfold copyLoop
    simp only [h3, if_true, h4, if_pos rfl]
    unfold copyLoop
    simp [hres]
    rfl
  refine ⟨hres, hcopy, ?_⟩
  intro config blob hmem
  have hne : resolvedName item ≠ "license" := by
    rw [hres]
    decide
  have hmm := mem_ilocEntries config.contents item hmem hne
  rw [hres] at hmm
  rw [dsStoreEntries_eq]
  exact List.mem_append.mpr (Or.inl (List.mem_append.mpr (Or.inl hmm)))

/-- Witness for C10 at the parent-directory path. -/
theorem c10_witness :
    (itemW10.name = none ∧ fileName itemW10.path = none ∧ itemW10.type_ = "file" ∧
      envOkBase.cp 0 = CmdResult.exit 0) ∧
    (resolvedName itemW10 = "file" ∧ copyLoop envOkBase [itemW10] 0 = .ok ["file"] ∧
      ∀ (config : DmgConfig) (blob : Option (List Nat)), itemW10 ∈ config.contents →
        Entry.iloc "file" itemW10.x itemW10.y ∈ dsStoreEntries config blob) :=
  ⟨⟨rfl, by decide, rfl, rfl⟩, c10_fallback_name envOkBase itemW10 rfl (by decide) rfl rfl⟩

/-- C1 counterexample: with a failing content copy the build aborts early
and the staging temp directory still exists afterwards, so the temp
resources are not removed on every error exit path. -/
theorem c1_counterexample :
    (build envC1 cfgBase).1 = .error (BuildErr.copyFailed "/src/App.app") ∧
    (build envC1 cfgBase).2.tempDirExists = true :=
  ⟨rfl, rfl⟩

/-- C1 amended: the staging temp directory and the temporary writable image
are removed only on the exit paths that reach the convert invocation; on
such a path, when the convert command launches and the two best-effort
removals succeed, neither resource exists afterwards, whatever the convert
exit status. -/
theorem c1_cleanup_after_convert (env : Env) (config : DmgConfig) (s : BuildState) (c : Nat)
    (hrun : runStages env config = .ok s)
    (hdet : env.detach ≠ CmdResult.spawnErr)
    (hout : (env.outputExists0 && !env.removeOutputOk) = false)
    (hconv : env.convert = CmdResult.exit c)
    (hdir : env.removeTempDirFinalOk = true)
    (hdmg : env.removeTempDmgFinalOk = true) :
    (build env config).2.tempDirExists = false ∧
    (build env config).2.tempDmgExists = false := by
  have hb : build env config = stageFinish env s := by
    unfold build
    rw [hrun]
  rw [hb]
  unfold stageFinish
  cases hd : env.detach with
  | spawnErr => exact absurd hd hdet
  | exit d =>
    simp only [hout, Bool.false_eq_true, if_false, hconv]
    by_cases h0 : c = 0 <;> simp [h0, hdir, hdmg]

/-- Witness for C1 amended on the all-success environment. -/
theorem c1_witness :
    (build envOkBase cfgBase).2.tempDirExists = false ∧
    (build envOkBase cfgBase).2.tempDmgExists = false :=
  c1_cleanup_after_convert envOkBase cfgBase _ 0 rfl (by decide) rfl rfl rfl rfl

/-- C2 counterexample: with a pre-existing file at the output path and a
failing conversion, the build returns the conversion error yet the
pre-existing file has been removed, so removal is not conditioned on
successful conversion. -/
theorem c2_counterexample :
    envC2.outputExists0 = true ∧
    (build envC2 cfgBase).1 = .error BuildErr.convertFailed ∧
    (build envC2 cfgBase).2.outputExists = false :=
  ⟨rfl, rfl, rfl⟩

/-- C2 amended: once the pipeline reaches the conversion step a
pre-existing file at the output path has already been removed, so after the
build a file exists at the output path exactly when the convert command
exited successfully, and the build reports success exactly in that case. -/
theorem c2_output_removed_before_convert (env : Env) (config : DmgConfig) (s : BuildState)
    (hrun : runStages env config = .ok s)
    (hdet : env.detach ≠ CmdResult.spawnErr)
    (hout : (env.outputExists0 && !env.removeOutputOk) = false) :
    ((build env config).2.outputExists = true ↔ env.convert = CmdResult.exit 0) ∧
    ((build env config).1 = Except.ok () ↔ env.convert = CmdResult.exit 0) := by
  have hb : build env config = stageFinish env s := by
    unfold build
    rw [hrun]
  rw [hb]
  unfold stageFinish
  cases hd : env.detach with
  | spawnErr => exact absurd hd hdet
  | exit d =>
    simp only [hout, Bool.false_eq_true, if_false]
    cases hc : env.convert with
    | spawnErr => simp
    | exit e =>
      by_cases h0 : e = 0
      · subst h0
        cases h2 : env.removeTempDirFinalOk <;> cases h3 : env.removeTempDmgFinalOk <;>
          simp [h2, h3]
      · cases h2 : env.removeTempDirFinalOk <;> cases h3 : env.removeTempDmgFinalOk <;>
          simp [h0, h2, h3]

/-- Witness for C2 amended on the all-success environment. -/
theorem c2_witness :
    ((build envOkBase cfgBase).2.outputExists = true ↔ envOkBase.convert = CmdResult.exit 0) ∧
    ((build envOkBase cfgBase).1 = Except.ok () ↔ envOkBase.convert = CmdResult.exit 0) :=
  c2_output_removed_before_convert envOkBase cfgBase _ rfl (by decide) rfl

/-- C3 counterexample: a detach command exiting with status 1 does not stop
the pipeline; the convert step still runs and the build reports success. -/
theorem c3_counterexample :
    envC3.detach = CmdResult.exit 1 ∧
    (build envC3 cfgBase).1 = Except.ok () ∧
    (build envC3 cfgBase).2.convertInvoked = true :=
  ⟨rfl, rfl, rfl⟩

/-- C3 amended: only a failure to launch the detach command aborts the
pipeline before conversion; a detach that runs and exits with any status,
zero or not, is ignored and the convert step is still invoked. -/
theorem c3_detach_spawn_only (env : Env) (config : DmgConfig) (s : BuildState)
    (hrun : runStages env config = .ok s) :
    (env.detach = CmdResult.spawnErr →
      (build env config).1 = .error (BuildErr.ioErr "hdiutil detach") ∧
      (build env config).2.convertInvoked = false) ∧
    (∀ c, env.detach = CmdResult.exit c →
      (env.outputExists0 && !env.removeOutputOk) = false →
      (build env config).2.convertInvoked = true) := by
  have hs := (runStages_ok_core env config s hrun).2.2
  have hb : build env config = stageFinish env s := by
    unfold build
    rw [hrun]
  rw [hb]
  constructor
  · intro hd
    unfold stageFinish
    rw [hd]
    exact ⟨rfl, by simp [hs]⟩
  · intro c hd hout
    unfold stageFinish
    rw [hd]
    simp only [hout, Bool.false_eq_true, if_false]
    cases hc : env.convert with
    | spawnErr => simp
    | exit e =>
      by_cases h0 : e = 0 <;>
        cases h2 : env.removeTempDirFinalOk <;> cases h3 : env.removeTempDmgFinalOk <;>
          simp [h0, h2, h3]

/-- Witness for C3 amended on the environment whose detach exits with a
non-zero status. -/
theorem c3_witness :
    (build envC3 cfgBase).2.convertInvoked = true :=
  (c3_detach_spawn_only envC3 cfgBase _ rfl).2 1 rfl rfl

/-- C4: a failing recursive copy of a file-kind item aborts the build at
once with an error carrying the failing source path, leaving the output
path untouched, the convert step never invoked and the temporary image
never created. -/
theorem c4_staging_copy_failure (env : Env) (config : DmgConfig) (i : Nat)
    (item : DmgContent) (c : Nat)
    (hprep : (env.tempDirExists0 && !env.removeTempDir0Ok) = false)
    (hcreate : env.createTempDirOk = true)
    (hi : config.contents.get? i = some item)
    (hty : item.type_ = "file")
    (hfail : env.cp i = CmdResult.exit c) (hc : c ≠ 0)
    (hbefore : ∀ j, j < i → ∀ itj, config.contents.get? j = some itj →
      itj.type_ = "file" → env.cp j = CmdResult.exit 0) :
    (build env config).1 = .error (BuildErr.copyFailed item.path) ∧
    (build env config).2.outputExists = env.outputExists0 ∧
    (build env config).2.convertInvoked = false ∧
    (build env config).2.tempDmgExists = env.tempDmgExists0 := by
  have hloop : copyLoop env config.contents 0 = .error (.copyFailed item.path) := by
    apply copyLoop_fails env config.contents 0 i item c hi hty ?_ hc ?_
    · rwa [Nat.zero_add]
    · intro j hj itj hg hf
      rw [Nat.zero_add]
      exact hbefore j hj itj hg hf
  rw [build_copy_error env config _ hprep hcreate hloop]
  exact ⟨rfl, rfl, rfl, rfl⟩

/-- Witness for C4: the second file item fails to copy. -/
theorem c4_witness :
    (build envW4 cfgW4).1 = .error (BuildErr.copyFailed itemOther.path) ∧
    (build envW4 cfgW4).2.outputExists = envW4.outputExists0 ∧
    (build envW4 cfgW4).2.convertInvoked = false ∧
    (build envW4 cfgW4).2.tempDmgExists = envW4.tempDmgExists0 :=
  c4_staging_copy_failure envW4 cfgW4 1 itemOther 1 rfl rfl rfl rfl rfl (by decide)
    (by
      intro j hj itj hg hf
      have hj0 : j = 0 := by omega
      subst hj0
      rfl)

/-- C5 counterexample: on attach output whose final tab-separated field is
the volume path padded with whitespace, the field itself does not begin
with the volumes prefix, yet the source trims it first, finds the mount
point, and the build succeeds instead of failing with a discovery error. -/
theorem c5_counterexample :
    specMountPoint ("disk\t /Volumes/V ".data) = none ∧
    findMountPoint ("disk\t /Volumes/V ".data) = some ("/Volumes/V".data) ∧
    (build envC5 cfgBase).1 = Except.ok () :=
  ⟨by decide, by decide, rfl⟩

/-- C5 amended: mount-point discovery scans the attach stdout line by line
and selects the first line whose final tab-separated field, after trimming
surrounding whitespace, begins with the volumes prefix, taking the trimmed
field as the mount path; when no line qualifies the build fails with the
fatal discovery error. -/
theorem c5_mount_discovery (env : Env) (config : DmgConfig) (stdout : String)
    (s : BuildState)
    (hrun : runToAttach env config = .ok s)
    (hatt : env.attach = some stdout) :
    (findMountPoint stdout.data = none →
      (build env config).1 = .error BuildErr.noMountPoint) ∧
    (∀ m, findMountPoint stdout.data = some m →
      ∃ pre l post, rustLines stdout.data = pre ++ l :: post ∧
        (∀ l2 ∈ pre, mountFieldOfLine l2 = none) ∧ mountFieldOfLine l = some m) ∧
    (findMountPoint stdout.data = none →
      ∀ l ∈ rustLines stdout.data, mountFieldOfLine l = none) := by
  refine ⟨?_, ?_, ?_⟩
  · intro hnone
    unfold build runStages stageAttach
    rw [hrun]
    simp [Except.bind, hatt, hnone]
  · intro m hm
    exact findSome?_split _ _ m hm
  · intro hnone
    exact findSome?_none _ _ hnone

/-- Witness for C5 amended on attach output with no volume line. -/
theorem c5_witness :
    (build envW5 cfgBase).1 = .error BuildErr.noMountPoint :=
  (c5_mount_discovery envW5 cfgBase "junk" _ rfl rfl).1 rfl

/-- C8: when the declared background-image path does not exist, the build
does not abort on account of the background; alias resolution degrades to
no blob and the metadata write is handed an entry list holding exactly one
icon-view-parameters entry, carrying no alias blob. -/
theorem c8_background_missing (env : Env) (config : DmgConfig) (stdout : String)
    (s : BuildState) (m : List Char)
    (hrun : runToAttach env config = .ok s)
    (hatt : env.attach = some stdout)
    (hmount : findMountPoint stdout.data = some m)
    (hbg : env.bgExists = false)
    (hmk : env.mkBgDirOk = true) :
    resolveAlias env.bgExists env.aliasEncode = none ∧
    (build env config).2.dsEntries = some (dsStoreEntries config none) ∧
    Entry.icvp config.icon_size none ∈ dsStoreEntries config none ∧
    (dsStoreEntries config none).countP Entry.isIcvp = 1 := by
  have hal : resolveAlias env.bgExists env.aliasEncode = none := by
    rw [hbg]
    rfl
  refine ⟨hal, ?_, ?_, dsStoreEntries_icvp_count config none⟩
  · unfold build runStages stageAttach stageLayout
    rw [hrun]
    cases hw : env.writeDsOk
    · simp [Except.bind, hatt, hmount, hmk, hbg, hw, resolveAlias]
    · simp [Except.bind, hatt, hmount, hmk, hbg, hw, resolveAlias, stageFinish_dsEntries]
  · rw [dsStoreEntries_eq]
    simp [List.mem_append]

/-- Witness for C8 on the all-success environment, whose background source
path does not exist. -/
theorem c8_witness :
    resolveAlias envOkBase.bgExists envOkBase.aliasEncode = none ∧
    (build envOkBase cfgBase).2.dsEntries = some (dsStoreEntries cfgBase none) ∧
    Entry.icvp cfgBase.icon_size none ∈ dsStoreEntries cfgBase none ∧
    (dsStoreEntries cfgBase none).countP Entry.isIcvp = 1 :=
  c8_background_missing envOkBase cfgBase "/dev/disk2\tApple_HFS\t/Volumes/T\n" _ _
    rfl rfl rfl rfl rfl
